import Mathlib

/-!
Verification of the posting/engagement scheduling and anti-spam policy engine
of the Bluesky bot (src/bluesky_bot.py) against its natural-language
specification.  Every definition below is a shallow embedding of the
corresponding Python function; external effects (network calls, the random
module, the wall clock) are supplied as explicit parameters or environment
fields.  Machine counters are modelled as `Nat` (they only ever grow by 1 and
are reset to 0, so no overflow modelling is needed); timestamps are `Int`
seconds, local dates are `Int` day ordinals.
-/

namespace BlueskyBot

/-! ## Configuration constants (bluesky_bot.py lines 56-76) -/

def NO_POST_START_HOUR : Nat := 23

def NO_POST_END_HOUR : Nat := 7

def MAX_POSTS_PER_DAY : Nat := 4

def MAX_ENGAGEMENTS_PER_DAY : Nat := 10

def MAX_POSTS_PER_HOUR : Nat := 2

def MAX_ENGAGEMENTS_PER_HOUR : Nat := 3

def MAX_IMG_GMGN_PER_DAY : Nat := 2

def MAX_SHORT_LINK_PER_DAY : Nat := 2

def MAX_GMGN_LONG_PER_DAY : Nat := 1

/-! ## Action kinds

The Python code uses the strings "post_img_gmgn_short", "post_gmgn_long",
"post_short_link" and "repost"; we embed them as an inductive type. -/

inductive ActionKind where
  | post_img_gmgn_short
  | post_gmgn_long
  | post_short_link
  | repost
deriving DecidableEq, Repr

/-- Per-kind daily counters; embeds the `pertype` dict (`_pertype_zero`,
line 130). -/
structure PerType where
  post_img_gmgn_short : Nat
  post_gmgn_long : Nat
  post_short_link : Nat
  repost : Nat
deriving DecidableEq, Repr

/-- Embeds `_pertype_zero()` (line 130). -/
def pertypeZero : PerType :=
  { post_img_gmgn_short := 0, post_gmgn_long := 0, post_short_link := 0, repost := 0 }

/-- Embeds `choose_action_with_caps(now_local, pertype)` (lines 403-439);
`h` is `now_local.hour`. -/
def choose_action_with_caps (h : Nat) (pertype : PerType) : ActionKind :=
  if 7 ≤ h ∧ h < 11 then
    if pertype.post_img_gmgn_short < MAX_IMG_GMGN_PER_DAY ∧ pertype.post_img_gmgn_short = 0 then
      .post_img_gmgn_short
    else if pertype.post_short_link < MAX_SHORT_LINK_PER_DAY then .post_short_link
    else if pertype.post_gmgn_long < MAX_GMGN_LONG_PER_DAY then .post_gmgn_long
    else .repost
  else if 11 ≤ h ∧ h < 19 then
    if pertype.post_short_link < MAX_SHORT_LINK_PER_DAY then .post_short_link
    else if pertype.post_gmgn_long < MAX_GMGN_LONG_PER_DAY then .post_gmgn_long
    else .repost
  else if 19 ≤ h ∧ h < 23 then
    if pertype.post_img_gmgn_short < MAX_IMG_GMGN_PER_DAY then .post_img_gmgn_short
    else if pertype.post_short_link < MAX_SHORT_LINK_PER_DAY then .post_short_link
    else if pertype.post_gmgn_long < MAX_GMGN_LONG_PER_DAY then .post_gmgn_long
    else .repost
  else
    if pertype.post_short_link < MAX_SHORT_LINK_PER_DAY then .post_short_link
    else if pertype.post_gmgn_long < MAX_GMGN_LONG_PER_DAY then .post_gmgn_long
    else .repost

/-- Embeds `is_quiet_hours(now_local)` (lines 355-360); `h` is the local
hour. -/
def is_quiet_hours (h : Nat) : Bool :=
  if NO_POST_START_HOUR ≤ NO_POST_END_HOUR then
    decide (NO_POST_START_HOUR ≤ h ∧ h < NO_POST_END_HOUR)
  else
    decide (NO_POST_START_HOUR ≤ h ∨ h < NO_POST_END_HOUR)

/-! ## Persistent state (lines 114-177) -/

/-- One entry of the `history` list (`remember_post`, lines 180-186).
`ts` is `none` when the stored timestamp is absent or unparseable
(the Python code skips such entries); timestamps are UTC seconds. -/
structure HistoryRec where
  text : String
  ts : Option Int
  media : Option String
deriving DecidableEq, Repr

/-- The `daily` sub-document (`{"date","posts","engagements"}`); `date` is
`none` for the initial sentinel `""`. -/
structure DailyCounters where
  date : Option Int
  posts : Nat
  engagements : Nat
deriving DecidableEq, Repr

/-- The local date+hour pair that the Python code encodes as the string
`f"{date}_{hour:02d}"` (line 175). -/
structure HourKey where
  date : Int
  hour : Nat
deriving DecidableEq, Repr

/-- The `hourly` sub-document (`{"key","posts","engagements"}`); `key` is
`none` for the initial sentinel `""`. -/
structure HourlyCounters where
  key : Option HourKey
  posts : Nat
  engagements : Nat
deriving DecidableEq, Repr

/-- The persisted state document (`load_state` defaults, lines 149-156). -/
structure BotState where
  history : List HistoryRec
  daily : DailyCounters
  hourly : HourlyCounters
  processed_notifications : List String
  recent_reposts : List String
  pertype : PerType
deriving DecidableEq, Repr

/-- The default state returned by `load_state()` when no document exists
(lines 149-156). -/
def initialState : BotState :=
  { history := []
    daily := { date := none, posts := 0, engagements := 0 }
    hourly := { key := none, posts := 0, engagements := 0 }
    processed_notifications := []
    recent_reposts := []
    pertype := pertypeZero }

/-- Python's `l[-n:]` slice, used for all the ring trims. -/
def lastN (n : Nat) (l : List α) : List α := l.drop (l.length - n)

/-- The local wall-clock instant a tick runs at: `date` is the local date
(day ordinal), `hour` the local hour, mirroring `now_local.date()` and
`now_local.hour`. -/
structure LocalTime where
  date : Int
  hour : Nat
deriving DecidableEq, Repr

/-- Embeds `reset_daily_if_needed` (lines 164-171). -/
def reset_daily_if_needed (state : BotState) (now : LocalTime) : BotState :=
  if state.daily.date ≠ some now.date then
    { state with
      daily := { date := some now.date, posts := 0, engagements := 0 }
      recent_reposts := lastN 200 state.recent_reposts
      pertype := pertypeZero }
  else state

/-- Embeds `reset_hourly_if_needed` (lines 174-177). -/
def reset_hourly_if_needed (state : BotState) (now : LocalTime) : BotState :=
  if state.hourly.key ≠ some { date := now.date, hour := now.hour } then
    { state with
      hourly := { key := some { date := now.date, hour := now.hour }, posts := 0, engagements := 0 } }
  else state

/-- The two lazy rollover checks performed at the top of every tick
(lines 517-518). -/
def rolled (state : BotState) (now : LocalTime) : BotState :=
  reset_hourly_if_needed (reset_daily_if_needed state now) now

/-- Embeds `remember_post` (lines 180-186): append a history record and
ring-trim to the last 400 entries.  `nowUtc` is the record timestamp. -/
def remember_post (state : BotState) (text : String) (media : Option String)
    (nowUtc : Int) : BotState :=
  { state with history := lastN 400 (state.history ++ [{ text := text, ts := some nowUtc, media := media }]) }

/-- Python's `str.strip()`: remove leading and trailing whitespace. -/
def pyStrip (s : String) : String :=
  String.mk (((s.data.dropWhile Char.isWhitespace).reverse.dropWhile Char.isWhitespace).reverse)

/-- Embeds `recently_used_text(state, text, days)` (lines 189-201): true if
some history entry with a parseable timestamp not older than `days` days has
the same stripped text.  `nowUtc` models `datetime.now(utc)`; one day is
86400 seconds. -/
def recently_used_text (state : BotState) (nowUtc : Int) (text : String)
    (days : Int) : Bool :=
  state.history.reverse.any fun item =>
    match item.ts with
    | none => false
    | some t => decide (nowUtc - days * 86400 ≤ t) && (pyStrip item.text == pyStrip text)

/-- Embeds `pick_without_recent(state, pool)` (lines 363-369).  The call
`random.shuffle` is modelled by the explicit `shuffled` argument (a
permutation of `pool` in every theorem below), and the final
`random.choice(pool)` by the drawn index `k`. -/
def pick_without_recent (state : BotState) (nowUtc : Int) (pool : List String)
    (shuffled : List String) (k : Nat) : String :=
  match shuffled.find? (fun s => ! recently_used_text state nowUtc s 7) with
  | some s => s
  | none => pool.getD k ("")

/-! ## Caps (lines 507-512) -/

/-- Embeds `can_post(state)` (lines 507-508). -/
def can_post (state : BotState) : Bool :=
  decide (state.daily.posts < MAX_POSTS_PER_DAY) &&
    decide (state.hourly.posts < MAX_POSTS_PER_HOUR)

/-- Embeds `can_engage(state)` (lines 511-512). -/
def can_engage (state : BotState) : Bool :=
  decide (state.daily.engagements < MAX_ENGAGEMENTS_PER_DAY) &&
    decide (state.hourly.engagements < MAX_ENGAGEMENTS_PER_HOUR)

/-! ## Notifications (lines 443-471) -/

/-- One notification as consumed by the policy: the fields `reason`, `cid`,
`id` and `uri` read through `getattr` in lines 449-452 and 460-461; absent
attributes are `none`. -/
structure Notif where
  reason : String
  cid : Option String
  id : Option String
  uri : Option String
deriving DecidableEq, Repr

/-- The identifier expression `getattr(n,"cid") or getattr(n,"id") or
getattr(n,"uri")` (lines 452 and 530). -/
def notifId (n : Notif) : Option String :=
  (n.cid.orElse fun _ => n.id).orElse fun _ => n.uri

/-- Embeds `fetch_unprocessed_mentions` (lines 443-456) minus the network
call: `notifs` is the list returned by `list_notifications`; keep the
notifications whose reason is mention or reply, that carry an identifier,
and whose identifier is not in the processed list. -/
def fetch_unprocessed_mentions (notifs : List Notif) (processed : List String) :
    List Notif :=
  notifs.filter fun n =>
    (n.reason == "mention" || n.reason == "reply") &&
    (match notifId n with
     | none => false
     | some nid => ! decide (nid ∈ processed))

/-- Embeds `engage_for_notification` (lines 459-471): `none` when `uri` or
`cid` is missing, otherwise a like (75% draw, modelled by `likeRoll`) or a
short reply.  The returned string only matters as a truthy outcome. -/
def engage_for_notification (likeRoll : Bool) (n : Notif) : Option String :=
  match n.uri, n.cid with
  | some _, some _ => if likeRoll then some ("like") else some ("reply")
  | _, _ => none

/-! ## Tick environment

`do_one_action` interacts with the network client and the `random` module;
every such interaction is an explicit field here, so the tick itself is a
pure function of `(env, state, now)`. -/

/-- Result of the wrapped `post_text` call (lines 650-656): it raises, or
returns `None` for the URI, or returns a URI. -/
inductive PubResult where
  | ok (uri : String)
  | noUri
  | err
deriving DecidableEq, Repr

/-- External inputs and random draws consumed by one tick. -/
structure TickEnv where
  /-- notifications returned by `list_notifications` (line 444) -/
  notifs : List Notif
  /-- `random.shuffle(fresh_mentions)` (line 525) -/
  shuffleMentions : List Notif → List Notif
  /-- the 75% like draw (line 465) -/
  likeRoll : Bool
  /-- first `pick_safe_repost` call (line 571) -/
  repostPick1 : Option (String × String)
  /-- whether the first `repost_post` call succeeds (line 575) -/
  repostOk1 : Bool
  /-- second `pick_safe_repost` call (line 624) -/
  repostPick2 : Option (String × String)
  /-- whether the second `repost_post` call succeeds (line 628) -/
  repostOk2 : Bool
  /-- `pick_gmgn_text(state, now_local, long=False)` (line 600) -/
  gmgnShortText : String
  /-- `pick_gmgn_text(state, now_local, long=True)` (line 611) -/
  gmgnLongText : String
  /-- `pick_link_short(state)` (line 620) -/
  linkText : String
  /-- `pick_fresh_image(state)` in the image branch (line 601) -/
  freshImage : Option String
  /-- `pick_fresh_image(state)` in the long-text branch (line 613) -/
  freshImage2 : Option String
  /-- the 30% draw adding an image to a long text (line 612) -/
  longImageRoll : Bool
  /-- outcome of `post_text` (line 651) -/
  postResult : PubResult
  /-- UTC timestamp recorded by `remember_post` (line 181) -/
  nowUtc : Int

/-! ## Action preparation (lines 548-648)

The body of the posting branch is split into the decision (which never
mutates state) and the execution (counter/history updates).  The Python code
interleaves them only in that a successful repost returns before the
preparation blocks run; `PostPlan` captures exactly the three possible
continuations. -/

/-- Embeds the nested `downgrade_from(action_name)` closure
(lines 549-564). -/
def downgrade_from (pertype : PerType) (a : ActionKind) : ActionKind :=
  match a with
  | .post_img_gmgn_short =>
    if pertype.post_short_link < MAX_SHORT_LINK_PER_DAY then .post_short_link
    else if pertype.post_gmgn_long < MAX_GMGN_LONG_PER_DAY then .post_gmgn_long
    else .repost
  | .post_gmgn_long =>
    if pertype.post_short_link < MAX_SHORT_LINK_PER_DAY then .post_short_link
    else .repost
  | .post_short_link =>
    if pertype.post_gmgn_long < MAX_GMGN_LONG_PER_DAY then .post_gmgn_long
    else .repost
  | .repost => .repost

/-- The mutable `(action, text, image)` triple threaded through the
preparation blocks. -/
abbrev Prep := ActionKind × Option String × Option String

/-- The `if action == "post_img_gmgn_short":` block (lines 599-604). -/
def imgBlock (env : TickEnv) (pertype : PerType) (st : Prep) : Prep :=
  if st.1 = .post_img_gmgn_short then
    match env.freshImage with
    | none => (downgrade_from pertype .post_img_gmgn_short, some env.gmgnShortText, none)
    | some img => (.post_img_gmgn_short, some env.gmgnShortText, some img)
  else st

/-- The `if action == "post_gmgn_long":` block (lines 606-613). -/
def longBlock (env : TickEnv) (pertype : PerType) (st : Prep) : Prep :=
  if st.1 = .post_gmgn_long then
    if MAX_GMGN_LONG_PER_DAY ≤ pertype.post_gmgn_long then
      (downgrade_from pertype .post_gmgn_long, st.2.1, st.2.2)
    else
      (.post_gmgn_long, some env.gmgnLongText,
        if env.longImageRoll then env.freshImage2 else st.2.2)
  else st

/-- The `if action == "post_short_link":` block (lines 615-620). -/
def linkBlock (env : TickEnv) (pertype : PerType) (st : Prep) : Prep :=
  if st.1 = .post_short_link then
    if MAX_SHORT_LINK_PER_DAY ≤ pertype.post_short_link then
      (downgrade_from pertype .post_short_link, st.2.1, st.2.2)
    else (.post_short_link, some env.linkText, st.2.2)
  else st

/-- What the posting branch will do after the preparation blocks: the second
repost attempt (lines 622-642), the no-content guard (lines 645-648), or a
text/image post (lines 650-669). -/
inductive PostPlan where
  | planRepost (uri : String)
  | planPost (a : ActionKind) (text : String) (image : Option String)
  | planSkip
deriving DecidableEq, Repr

/-- Lines 622-648: dispatch on the prepared triple.  `planSkip` covers both
"no repost candidate" and the `not text` safety guard (`None` or the empty
string, both falsy in Python). -/
def finishPlan (env : TickEnv) (st : Prep) : PostPlan :=
  if st.1 = .repost then
    match env.repostPick2 with
    | some pr => if env.repostOk2 then .planRepost pr.1 else .planSkip
    | none => .planSkip
  else
    match st.2.1 with
    | none => .planSkip
    | some t => if t = "" then .planSkip else .planPost st.1 t st.2.2

/-- The preparation blocks run in source order on an initial
`(action, None, None)` triple (lines 566-567, 599-648). -/
def prepBlocks (env : TickEnv) (pertype : PerType) (a0 : ActionKind) : PostPlan :=
  finishPlan env (linkBlock env pertype (longBlock env pertype (imgBlock env pertype (a0, none, none))))

/-- Lines 588-596: after a failed or impossible first repost attempt, fall
back to a link if its cap is open, else a long text, else skip. -/
def repostFallbackPlan (env : TickEnv) (pertype : PerType) : PostPlan :=
  if pertype.post_short_link < MAX_SHORT_LINK_PER_DAY then
    prepBlocks env pertype .post_short_link
  else if pertype.post_gmgn_long < MAX_GMGN_LONG_PER_DAY then
    prepBlocks env pertype .post_gmgn_long
  else .planSkip

/-- The decision taken by the posting branch (lines 544-648), given the
current per-kind counters and the local hour: choose an action, handle the
immediate repost case (lines 569-596), then run the preparation blocks. -/
def postingDecision (env : TickEnv) (pertype : PerType) (h : Nat) : PostPlan :=
  let action := choose_action_with_caps h pertype
  if action = .repost then
    match env.repostPick1 with
    | some pr => if env.repostOk1 then .planRepost pr.1 else repostFallbackPlan env pertype
    | none => repostFallbackPlan env pertype
  else prepBlocks env pertype action

/-! ## State mutations of the posting branch -/

/-- `state["pertype"][action] = ... + 1` (lines 580, 633, 661). -/
def bumpPertype (p : PerType) (a : ActionKind) : PerType :=
  match a with
  | .post_img_gmgn_short => { p with post_img_gmgn_short := p.post_img_gmgn_short + 1 }
  | .post_gmgn_long => { p with post_gmgn_long := p.post_gmgn_long + 1 }
  | .post_short_link => { p with post_short_link := p.post_short_link + 1 }
  | .repost => { p with repost := p.repost + 1 }

/-- The mutations of a successful repost (lines 576-581 and 629-634):
remember the URI (trimmed to 400), bump both post counters and the repost
per-kind counter. -/
def recordRepost (state : BotState) (uri : String) : BotState :=
  { state with
    recent_reposts := lastN 400 (state.recent_reposts ++ [uri])
    daily := { state.daily with posts := state.daily.posts + 1 }
    hourly := { state.hourly with posts := state.hourly.posts + 1 }
    pertype := bumpPertype state.pertype .repost }

/-- The mutations of a successful text/image post (lines 657-661):
`remember_post`, bump both post counters and the per-kind counter. -/
def recordPostSuccess (state : BotState) (a : ActionKind) (text : String)
    (image : Option String) (nowUtc : Int) : BotState :=
  let s1 := remember_post state text image nowUtc
  { s1 with
    daily := { s1.daily with posts := s1.daily.posts + 1 }
    hourly := { s1.hourly with posts := s1.hourly.posts + 1 }
    pertype := bumpPertype s1.pertype a }

/-- The status string a tick returns (lines 540, 585, 596, 638, 642, 648,
654, 666, 669, 672). -/
inductive TickResult where
  | engaged
  | reposted
  | posted
  | post_failed
  | skip
deriving DecidableEq, Repr

/-- The posting branch of `do_one_action` (lines 542-672): guarded by
`can_post` and quiet hours, then decide and execute.  A publish failure
(exception or missing URI) returns `post_failed` with the state untouched. -/
def postingPhase (env : TickEnv) (state : BotState) (now : LocalTime) :
    TickResult × BotState :=
  if can_post state && ! is_quiet_hours now.hour then
    match postingDecision env state.pertype now.hour with
    | .planRepost uri => (.reposted, recordRepost state uri)
    | .planSkip => (.skip, state)
    | .planPost a t i =>
      match env.postResult with
      | .ok _ => (.posted, recordPostSuccess state a t i env.nowUtc)
      | .noUri => (.post_failed, state)
      | .err => (.post_failed, state)
  else (.skip, state)

/-- Line 532-533: append the engaged notification's identifier (when it has
one) to the processed list, trimmed to the last 500. -/
def procMark (state : BotState) (onid : Option String) : BotState :=
  match onid with
  | some nid =>
    { state with processed_notifications := lastN 500 (state.processed_notifications ++ [nid]) }
  | none => state

/-- Lines 534-535: bump both engagement counters. -/
def engRecord (state : BotState) : BotState :=
  { state with
    daily := { state.daily with engagements := state.daily.engagements + 1 }
    hourly := { state.hourly with engagements := state.hourly.engagements + 1 } }

/-- The engagement branch of `do_one_action` (lines 522-540): if engagement
caps allow and a shuffled unprocessed mention exists, engage the first one;
on a truthy engagement mark it processed, bump the counters and return
`engaged`; otherwise fall through to the posting branch. -/
def engagementPhase (env : TickEnv) (state : BotState) (now : LocalTime) :
    TickResult × BotState :=
  if can_engage state then
    match env.shuffleMentions
        (fetch_unprocessed_mentions env.notifs state.processed_notifications) with
    | n :: _rest =>
      match engage_for_notification env.likeRoll n with
      | some _kind => (.engaged, engRecord (procMark state (notifId n)))
      | none => postingPhase env state now
    | [] => postingPhase env state now
  else postingPhase env state now

/-- Embeds `do_one_action(client, state, tz)` (lines 515-672): roll the
counters, then the engagement branch, then the posting branch. -/
def do_one_action (env : TickEnv) (state : BotState) (now : LocalTime) :
    TickResult × BotState :=
  engagementPhase env (rolled state now) now

/-- A sequence of ticks (the `--loop` mode, lines 692-711, ignoring the
sleeps): fold `do_one_action` over the per-tick environments and
wall-clock instants. -/
def runTicks (ticks : List (TickEnv × LocalTime)) (state : BotState) : BotState :=
  ticks.foldl (fun s p => (do_one_action p.1 s p.2).2) state

/-- The caps invariant of the spec (section 8): no counter ever exceeds its
cap. -/
abbrev CapsInv (s : BotState) : Prop :=
  s.daily.posts ≤ MAX_POSTS_PER_DAY ∧ s.hourly.posts ≤ MAX_POSTS_PER_HOUR ∧
  s.daily.engagements ≤ MAX_ENGAGEMENTS_PER_DAY ∧
  s.hourly.engagements ≤ MAX_ENGAGEMENTS_PER_HOUR

/-! ## Retry wrapper (lines 240-270) -/

/-- Result of running `with_backoff(fn)` against a scripted list of call
outcomes: the wrapped call returned (with the backoff sleeps performed, in
seconds, in order), the wrapper re-raised, or the script ran out while the
wrapper was still retrying. -/
inductive BackoffResult where
  | succeeded (sleeps : List Nat)
  | raised (sleeps : List Nat)
  | exhausted
deriving DecidableEq, Repr

/-- The `while True` loop of `with_backoff` (lines 250-269).  Each scripted
outcome is `none` (the call returns), `some true` (it raises an exception
for which `_needs_backoff` is true, i.e. a rate-limit signal) or
`some false` (it raises any other exception).  `tries` and the accumulated
sleep list are threaded explicitly; `tries + 1` is the value of `tries`
after the `tries += 1` on line 257.  Sleeps are the exact values computed on
lines 259 (`min(5.0 * 2 ** (tries - 1), 60.0)`) and 265 (`2.0 * tries`),
which are always whole seconds. -/
def with_backoff_go : List (Option Bool) → Nat → List Nat → BackoffResult
  | [], _, _ => .exhausted
  | o :: rest, tries, sleeps =>
    match o with
    | none => .succeeded sleeps.reverse
    | some isRL =>
      if isRL then
        with_backoff_go rest (tries + 1) (min (5 * 2 ^ (tries + 1 - 1)) 60 :: sleeps)
      else if tries + 1 ≤ 2 then
        with_backoff_go rest (tries + 1) (2 * (tries + 1) :: sleeps)
      else .raised sleeps.reverse

/-- Embeds a full run of the `with_backoff` wrapper (lines 249-270) against
a scripted list of outcomes, starting from `tries = 0`. -/
def with_backoff (attempts : List (Option Bool)) : BackoffResult :=
  with_backoff_go attempts 0 []

/-! ## Concrete witnesses: environments and instants -/

/-- A tick environment with no notifications, no repost candidates, and a
successful publish call. -/
def linkEnv : TickEnv :=
  { notifs := []
    shuffleMentions := fun l => l
    likeRoll := true
    repostPick1 := none
    repostOk1 := false
    repostPick2 := none
    repostOk2 := false
    gmgnShortText := "GM"
    gmgnLongText := "GM long"
    linkText := "https://example.org/x"
    freshImage := none
    freshImage2 := none
    longImageRoll := false
    postResult := .ok ("at://post/1")
    nowUtc := 0 }

/-- Like `linkEnv` but the publish call raises. -/
def failEnv : TickEnv :=
  { linkEnv with postResult := .err }

/-- One opt-in mention notification carrying all its fields. -/
def mentionNotif : Notif :=
  { reason := "mention", cid := some ("cid1"), id := none, uri := some ("at://m/1") }

/-- Like `linkEnv` but with one unprocessed mention available. -/
def engageEnv : TickEnv :=
  { linkEnv with notifs := [mentionNotif] }

/-- Local instants on day 0, hours 13 to 16 (midday window). -/
def t13 : LocalTime := { date := 0, hour := 13 }

def t14 : LocalTime := { date := 0, hour := 14 }

def t15 : LocalTime := { date := 0, hour := 15 }

def t16 : LocalTime := { date := 0, hour := 16 }

end BlueskyBot

namespace BlueskyBot

/-- C10: `choose_action_with_caps` is total over hours 0..23 (captured by its
return type together with the explicit four-way disjunction below); whenever
it returns a kind other than `repost`, that kind's per-day count is strictly
below its per-day cap; and in the morning window it returns the image-greeting
kind only when the image-greeting count is exactly zero. -/
theorem choose_action_with_caps_quota_sound (h : Nat) (p : PerType) (hh : h < 24) :
    (choose_action_with_caps h p = .post_img_gmgn_short ∨
      choose_action_with_caps h p = .post_gmgn_long ∨
      choose_action_with_caps h p = .post_short_link ∨
      choose_action_with_caps h p = .repost) ∧
    (choose_action_with_caps h p = .post_img_gmgn_short →
      p.post_img_gmgn_short < MAX_IMG_GMGN_PER_DAY) ∧
    (choose_action_with_caps h p = .post_short_link →
      p.post_short_link < MAX_SHORT_LINK_PER_DAY) ∧
    (choose_action_with_caps h p = .post_gmgn_long →
      p.post_gmgn_long < MAX_GMGN_LONG_PER_DAY) ∧
    (7 ≤ h → h < 11 → choose_action_with_caps h p = .post_img_gmgn_short →
      p.post_img_gmgn_short = 0) := by
  unfold choose_action_with_caps
  split_ifs <;> simp_all <;> omega

/-- C10 witness: instantiation at hour 8 with all counts zero. -/
theorem choose_action_with_caps_quota_sound_witness :
    choose_action_with_caps 8 pertypeZero = .post_img_gmgn_short ∨
      choose_action_with_caps 8 pertypeZero = .post_gmgn_long ∨
      choose_action_with_caps 8 pertypeZero = .post_short_link ∨
      choose_action_with_caps 8 pertypeZero = .repost :=
  (choose_action_with_caps_quota_sound 8 pertypeZero (by decide)).1

/-- C1 counterexample: at local hour 13 (inside the midday window `[11,19)`)
with all per-kind counts zero, the selection function returns the short-link
kind, contradicting the claim that no link-kind post is ever selected while
the local hour falls in `[11,19)`.  The source (lines 417-419) offers the
link kind first in this window. -/
theorem midday_selects_link_counterexample :
    choose_action_with_caps 13 pertypeZero = .post_short_link := by decide

/-- C1 (amended): in the midday window `[11,19)` the selection function
offers the short-link kind with highest priority: it returns short-link
exactly when the daily link count is below its cap, otherwise the long
greeting when its cap is open, otherwise repost. -/
theorem midday_link_first (h : Nat) (p : PerType) (h1 : 11 ≤ h) (h2 : h < 19) :
    choose_action_with_caps h p =
      (if p.post_short_link < MAX_SHORT_LINK_PER_DAY then .post_short_link
       else if p.post_gmgn_long < MAX_GMGN_LONG_PER_DAY then .post_gmgn_long
       else .repost) := by
  unfold choose_action_with_caps
  split_ifs <;> first | rfl | omega

/-- C1 (amended) witness: instantiation at hour 12 with all counts zero. -/
theorem midday_link_first_witness :
    11 ≤ 12 ∧ 12 < 19 ∧ choose_action_with_caps 12 pertypeZero = .post_short_link := by
  refine ⟨by decide, by decide, ?_⟩
  have h := midday_link_first 12 pertypeZero (by decide) (by decide)
  simpa using h

/-- A history entry with a fresh timestamp and matching trimmed text makes
`recently_used_text` true. -/
theorem recently_used_text_of_mem (s : BotState) (nowUtc : Int) (T : String)
    (r : HistoryRec) (hr : r ∈ s.history) (t : Int) (hts : r.ts = some t)
    (hfresh : nowUtc - 7 * 86400 ≤ t) (htext : pyStrip r.text = pyStrip T) :
    recently_used_text s nowUtc T 7 = true := by
  unfold recently_used_text
  rw [List.any_eq_true]
  refine ⟨r, List.mem_reverse.mpr hr, ?_⟩
  rw [hts]
  simp only [Bool.and_eq_true, decide_eq_true_eq, beq_iff_eq]
  exact ⟨by omega, htext⟩

/-- C6: anti-repetition selection.  If the history contains an entry whose
trimmed text equals candidate `T`'s trimmed text with a timestamp within the
last 7 days, then (first conjunct) whenever some pool member is not recently
used, the picker returns a pool member different from `T`; and (second
conjunct) if every pool member is recently used, the picker still returns the
pool member at the drawn index `k` — a member of the pool — rather than
failing.  `shuffled` ranges over all permutations of the pool, `k` over all
indices, modelling the two random draws. -/
theorem pick_without_recent_sound (s : BotState) (nowUtc : Int)
    (pool shuffled : List String) (k : Nat) (T : String)
    (hperm : shuffled.Perm pool) (hk : k < pool.length)
    (hT : ∃ r ∈ s.history, ∃ t : Int, r.ts = some t ∧
      nowUtc - 7 * 86400 ≤ t ∧ pyStrip r.text = pyStrip T) :
    ((∃ u ∈ pool, recently_used_text s nowUtc u 7 = false) →
        pick_without_recent s nowUtc pool shuffled k ≠ T ∧
        pick_without_recent s nowUtc pool shuffled k ∈ pool) ∧
    ((∀ u ∈ pool, recently_used_text s nowUtc u 7 = true) →
        pick_without_recent s nowUtc pool shuffled k = pool.getD k ("") ∧
        pick_without_recent s nowUtc pool shuffled k ∈ pool) := by
  obtain ⟨r, hr, t, hts, hfresh, htext⟩ := hT
  have hrecT : recently_used_text s nowUtc T 7 = true :=
    recently_used_text_of_mem s nowUtc T r hr t hts hfresh htext
  constructor
  · rintro ⟨u, hu, hufresh⟩
    have hush : u ∈ shuffled := hperm.mem_iff.mpr hu
    have hfound : ∃ x ∈ shuffled, (! recently_used_text s nowUtc x 7) = true :=
      ⟨u, hush, by simp [hufresh]⟩
    obtain ⟨x, hxmem, hxp⟩ := hfound
    rcases hfind : shuffled.find? (fun z => ! recently_used_text s nowUtc z 7) with _ | y
    · exact absurd hxp (by
        have := List.find?_eq_none.mp hfind x hxmem
        simpa using this)
    · have hy := List.find?_some hfind
      simp only [Bool.not_eq_true'] at hy
      have hymem : y ∈ shuffled := List.mem_of_find?_eq_some hfind
      have hpick : pick_without_recent s nowUtc pool shuffled k = y := by
        unfold pick_without_recent
        rw [hfind]
      constructor
      · rw [hpick]
        intro hcontra
        rw [hcontra, hrecT] at hy
        simp at hy
      · rw [hpick]
        exact hperm.mem_iff.mp hymem
  · intro hall
    have hnone : shuffled.find? (fun z => ! recently_used_text s nowUtc z 7) = none := by
      rw [List.find?_eq_none]
      intro x hx
      have := hall x (hperm.mem_iff.mp hx)
      simp [this]
    have hpick : pick_without_recent s nowUtc pool shuffled k = pool.getD k ("") := by
      unfold pick_without_recent
      rw [hnone]
    refine ⟨hpick, ?_⟩
    rw [hpick, List.getD_eq_getElem pool ("") hk]
    exact List.getElem_mem hk

/-- C6 witness: pool `["a", "b"]` (shuffled to `["b", "a"]`), candidate
`"a"` used at timestamp 0 with the clock at 0, `"b"` never used. -/
theorem pick_without_recent_sound_witness :
    pick_without_recent
        { initialState with history := [{ text := "a", ts := some 0, media := none }] }
        0 ["a", "b"] ["b", "a"] 0 ≠ "a" ∧
      pick_without_recent
        { initialState with history := [{ text := "a", ts := some 0, media := none }] }
        0 ["a", "b"] ["b", "a"] 0 ∈ ["a", "b"] := by
  refine (pick_without_recent_sound
      { initialState with history := [{ text := "a", ts := some 0, media := none }] }
      0 ["a", "b"] ["b", "a"] 0 ("a") ?_ (by decide) ?_).1 ?_
  · exact List.Perm.swap ("a") ("b") []
  · exact ⟨{ text := "a", ts := some 0, media := none }, by simp, 0, rfl, by decide, rfl⟩
  · exact ⟨"b", by simp, by decide⟩

/-! ### Projection lemmas for the state mutations -/

theorem procMark_daily (s : BotState) (o : Option String) :
    (procMark s o).daily = s.daily := by cases o <;> simp [procMark]

theorem procMark_hourly (s : BotState) (o : Option String) :
    (procMark s o).hourly = s.hourly := by cases o <;> simp [procMark]

theorem procMark_pertype (s : BotState) (o : Option String) :
    (procMark s o).pertype = s.pertype := by cases o <;> simp [procMark]

theorem engRecord_daily_eng (s : BotState) :
    (engRecord s).daily.engagements = s.daily.engagements + 1 := rfl

theorem engRecord_hourly_eng (s : BotState) :
    (engRecord s).hourly.engagements = s.hourly.engagements + 1 := rfl

theorem engRecord_daily_posts (s : BotState) :
    (engRecord s).daily.posts = s.daily.posts := rfl

theorem engRecord_hourly_posts (s : BotState) :
    (engRecord s).hourly.posts = s.hourly.posts := rfl

theorem engRecord_pertype (s : BotState) : (engRecord s).pertype = s.pertype := rfl

theorem recordRepost_daily_posts (s : BotState) (u : String) :
    (recordRepost s u).daily.posts = s.daily.posts + 1 := rfl

theorem recordRepost_hourly_posts (s : BotState) (u : String) :
    (recordRepost s u).hourly.posts = s.hourly.posts + 1 := rfl

theorem recordRepost_daily_eng (s : BotState) (u : String) :
    (recordRepost s u).daily.engagements = s.daily.engagements := rfl

theorem recordRepost_hourly_eng (s : BotState) (u : String) :
    (recordRepost s u).hourly.engagements = s.hourly.engagements := rfl

theorem recordRepost_pertype (s : BotState) (u : String) :
    (recordRepost s u).pertype = bumpPertype s.pertype .repost := rfl

theorem recordPostSuccess_daily_posts (s : BotState) (a : ActionKind) (t : String)
    (i : Option String) (u : Int) :
    (recordPostSuccess s a t i u).daily.posts = s.daily.posts + 1 := rfl

theorem recordPostSuccess_hourly_posts (s : BotState) (a : ActionKind) (t : String)
    (i : Option String) (u : Int) :
    (recordPostSuccess s a t i u).hourly.posts = s.hourly.posts + 1 := rfl

theorem recordPostSuccess_daily_eng (s : BotState) (a : ActionKind) (t : String)
    (i : Option String) (u : Int) :
    (recordPostSuccess s a t i u).daily.engagements = s.daily.engagements := rfl

theorem recordPostSuccess_hourly_eng (s : BotState) (a : ActionKind) (t : String)
    (i : Option String) (u : Int) :
    (recordPostSuccess s a t i u).hourly.engagements = s.hourly.engagements := rfl

theorem recordPostSuccess_pertype (s : BotState) (a : ActionKind) (t : String)
    (i : Option String) (u : Int) :
    (recordPostSuccess s a t i u).pertype = bumpPertype s.pertype a := rfl

theorem bumpPertype_link (p : PerType) (a : ActionKind) :
    (bumpPertype p a).post_short_link =
      (if a = .post_short_link then p.post_short_link + 1 else p.post_short_link) := by
  cases a <;> rfl

/-! ### Case analyses of the two phases -/

/-- The posting branch either leaves the state alone (skip or publish
failure), or — only when `can_post` held — performs exactly one repost or
one post. -/
theorem postingPhase_cases (env : TickEnv) (s : BotState) (now : LocalTime) :
    ((postingPhase env s now).1 = .skip ∧ (postingPhase env s now).2 = s) ∨
    ((postingPhase env s now).1 = .post_failed ∧ (postingPhase env s now).2 = s) ∨
    (can_post s = true ∧ ∃ uri, (postingPhase env s now).1 = .reposted ∧
      (postingPhase env s now).2 = recordRepost s uri) ∨
    (can_post s = true ∧ ∃ a t i,
      postingDecision env s.pertype now.hour = .planPost a t i ∧
      (postingPhase env s now).1 = .posted ∧
      (postingPhase env s now).2 = recordPostSuccess s a t i env.nowUtc) := by
  unfold postingPhase
  cases hg : can_post s && ! is_quiet_hours now.hour with
  | false =>
    rw [if_neg (by simp)]
    exact Or.inl ⟨rfl, rfl⟩
  | true =>
    have hcp : can_post s = true := ((Bool.and_eq_true _ _).mp hg).1
    rw [if_pos rfl]
    cases hplan : postingDecision env s.pertype now.hour with
    | planRepost uri => exact Or.inr (Or.inr (Or.inl ⟨hcp, uri, rfl, rfl⟩))
    | planSkip => exact Or.inl ⟨rfl, rfl⟩
    | planPost a t i =>
      cases hpr : env.postResult with
      | ok u => exact Or.inr (Or.inr (Or.inr ⟨hcp, a, t, i, rfl, rfl, rfl⟩))
      | noUri => exact Or.inr (Or.inl ⟨rfl, rfl⟩)
      | err => exact Or.inr (Or.inl ⟨rfl, rfl⟩)

/-- The engagement branch either falls through to the posting branch, or —
only when `can_engage` held and a shuffled unprocessed mention was engaged —
marks it processed and bumps the engagement counters. -/
theorem engagementPhase_cases (env : TickEnv) (s : BotState) (now : LocalTime) :
    engagementPhase env s now = postingPhase env s now ∨
    (can_engage s = true ∧ ∃ n rest,
      env.shuffleMentions
          (fetch_unprocessed_mentions env.notifs s.processed_notifications) = n :: rest ∧
      engage_for_notification env.likeRoll n ≠ none ∧
      (engagementPhase env s now).1 = .engaged ∧
      (engagementPhase env s now).2 = engRecord (procMark s (notifId n))) := by
  unfold engagementPhase
  cases hce : can_engage s with
  | false =>
    rw [if_neg (by simp)]
    exact Or.inl rfl
  | true =>
    rw [if_pos rfl]
    cases hl : env.shuffleMentions
        (fetch_unprocessed_mentions env.notifs s.processed_notifications) with
    | nil => exact Or.inl rfl
    | cons n rest =>
      dsimp only
      cases hek : engage_for_notification env.likeRoll n with
      | none => exact Or.inl rfl
      | some k => exact Or.inr ⟨rfl, n, rest, rfl, by simp [hek], rfl, rfl⟩

/-- The rollover checks never increase any counter. -/
theorem rolled_le (s : BotState) (now : LocalTime) :
    (rolled s now).daily.posts ≤ s.daily.posts ∧
    (rolled s now).hourly.posts ≤ s.hourly.posts ∧
    (rolled s now).daily.engagements ≤ s.daily.engagements ∧
    (rolled s now).hourly.engagements ≤ s.hourly.engagements ∧
    (rolled s now).pertype.post_short_link ≤ s.pertype.post_short_link := by
  unfold rolled reset_daily_if_needed reset_hourly_if_needed
  split <;> split <;> simp [pertypeZero]

/-- One tick preserves the caps invariant. -/
theorem tick_CapsInv (env : TickEnv) (s : BotState) (now : LocalTime)
    (h : CapsInv s) : CapsInv (do_one_action env s now).2 := by
  have hr := rolled_le s now
  obtain ⟨hd, hhp, hde, hhe⟩ : CapsInv (rolled s now) :=
    ⟨le_trans hr.1 h.1, le_trans hr.2.1 h.2.1, le_trans hr.2.2.1 h.2.2.1,
      le_trans hr.2.2.2.1 h.2.2.2⟩
  unfold do_one_action
  rcases engagementPhase_cases env (rolled s now) now with heq |
      ⟨hce, n, rest, _hl, _hek, _hr1, heq⟩
  · rw [heq]
    rcases postingPhase_cases env (rolled s now) now with ⟨_, h2⟩ | ⟨_, h2⟩ |
        ⟨hcp, uri, _, h2⟩ | ⟨hcp, a, t, i, _, _, h2⟩
    · rw [h2]; exact ⟨hd, hhp, hde, hhe⟩
    · rw [h2]; exact ⟨hd, hhp, hde, hhe⟩
    · rw [h2]
      simp only [can_post, Bool.and_eq_true, decide_eq_true_eq] at hcp
      obtain ⟨hp1, hp2⟩ := hcp
      refine ⟨?_, ?_, ?_, ?_⟩
      · rw [recordRepost_daily_posts]; omega
      · rw [recordRepost_hourly_posts]; omega
      · rw [recordRepost_daily_eng]; exact hde
      · rw [recordRepost_hourly_eng]; exact hhe
    · rw [h2]
      simp only [can_post, Bool.and_eq_true, decide_eq_true_eq] at hcp
      obtain ⟨hp1, hp2⟩ := hcp
      refine ⟨?_, ?_, ?_, ?_⟩
      · rw [recordPostSuccess_daily_posts]; omega
      · rw [recordPostSuccess_hourly_posts]; omega
      · rw [recordPostSuccess_daily_eng]; exact hde
      · rw [recordPostSuccess_hourly_eng]; exact hhe
  · rw [heq]
    simp only [can_engage, Bool.and_eq_true, decide_eq_true_eq] at hce
    obtain ⟨he1, he2⟩ := hce
    refine ⟨?_, ?_, ?_, ?_⟩
    · rw [engRecord_daily_posts, procMark_daily]; exact hd
    · rw [engRecord_hourly_posts, procMark_hourly]; exact hhp
    · rw [engRecord_daily_eng, procMark_daily]; omega
    · rw [engRecord_hourly_eng, procMark_hourly]; omega

/-- C2: over every sequence of ticks the daily/hourly post and engagement
counters never exceed their caps; a tick's result is `posted`/`reposted`
only when `can_post` held after the rollover checks, and then both post
counters grow by exactly one; a tick's result is `engaged` only when
`can_engage` held, and then both engagement counters grow by exactly one. -/
theorem caps_and_counters_sound :
    (∀ ticks s0, CapsInv s0 → CapsInv (runTicks ticks s0)) ∧
    (∀ env s0 now,
      ((do_one_action env s0 now).1 = TickResult.posted ∨
        (do_one_action env s0 now).1 = TickResult.reposted) →
      can_post (rolled s0 now) = true ∧
      (do_one_action env s0 now).2.daily.posts = (rolled s0 now).daily.posts + 1 ∧
      (do_one_action env s0 now).2.hourly.posts = (rolled s0 now).hourly.posts + 1) ∧
    (∀ env s0 now, (do_one_action env s0 now).1 = TickResult.engaged →
      can_engage (rolled s0 now) = true ∧
      (do_one_action env s0 now).2.daily.engagements =
        (rolled s0 now).daily.engagements + 1 ∧
      (do_one_action env s0 now).2.hourly.engagements =
        (rolled s0 now).hourly.engagements + 1) := by
  refine ⟨?_, ?_, ?_⟩
  · intro ticks
    induction ticks with
    | nil => intro s0 h; exact h
    | cons t ts ih =>
      intro s0 h
      exact ih _ (tick_CapsInv t.1 s0 t.2 h)
  · intro env s0 now hres
    unfold do_one_action at hres ⊢
    rcases engagementPhase_cases env (rolled s0 now) now with heq |
        ⟨_, n, rest, _, _, hr1, _⟩
    · rw [heq] at hres ⊢
      rcases postingPhase_cases env (rolled s0 now) now with ⟨h1, _⟩ | ⟨h1, _⟩ |
          ⟨hcp, uri, h1, h2⟩ | ⟨hcp, a, t, i, _, h1, h2⟩
      · rw [h1] at hres; rcases hres with hres | hres <;> exact absurd hres (by simp)
      · rw [h1] at hres; rcases hres with hres | hres <;> exact absurd hres (by simp)
      · rw [h2]
        exact ⟨hcp, by rw [recordRepost_daily_posts], by rw [recordRepost_hourly_posts]⟩
      · rw [h2]
        exact ⟨hcp, by rw [recordPostSuccess_daily_posts],
          by rw [recordPostSuccess_hourly_posts]⟩
    · rw [hr1] at hres
      rcases hres with hres | hres <;> exact absurd hres (by simp)
  · intro env s0 now hres
    unfold do_one_action at hres ⊢
    rcases engagementPhase_cases env (rolled s0 now) now with heq |
        ⟨hce, n, rest, _, _, hr1, heq2⟩
    · rw [heq] at hres ⊢
      rcases postingPhase_cases env (rolled s0 now) now with ⟨h1, _⟩ | ⟨h1, _⟩ |
          ⟨_, uri, h1, _⟩ | ⟨_, a, t, i, _, h1, _⟩ <;>
        rw [h1] at hres <;> exact absurd hres (by simp)
    · rw [heq2]
      exact ⟨hce, by rw [engRecord_daily_eng, procMark_daily],
        by rw [engRecord_hourly_eng, procMark_hourly]⟩

/-- C2 witness: the caps invariant holds after two concrete posting ticks
from the default state. -/
theorem caps_and_counters_sound_witness :
    CapsInv (runTicks [(linkEnv, t13), (linkEnv, t14)] initialState) :=
  caps_and_counters_sound.1 [(linkEnv, t13), (linkEnv, t14)] initialState (by decide)

/-- During quiet hours the posting branch is disabled entirely. -/
theorem postingPhase_quiet (env : TickEnv) (s : BotState) (now : LocalTime)
    (hq : is_quiet_hours now.hour = true) :
    postingPhase env s now = (.skip, s) := by
  unfold postingPhase
  rw [if_neg (by simp [hq])]

/-- C5: the quiet-hours predicate holds exactly on `[23,24) ∪ [0,7)`
(half-open, wrapping across midnight); while it holds, no tick returns a
posting outcome (`posted`, `reposted` or `post_failed`) and the post
counters are untouched; and the engagement branch is unaffected: whenever
the engagement caps allow and an unprocessed mention is engaged, the tick
returns `engaged` regardless of the hour. -/
theorem quiet_hours_sound :
    (∀ h, h < 24 → (is_quiet_hours h = true ↔ ((23 ≤ h ∧ h < 24) ∨ h < 7))) ∧
    (∀ env s0 now, is_quiet_hours now.hour = true →
      (do_one_action env s0 now).1 ≠ TickResult.posted ∧
      (do_one_action env s0 now).1 ≠ TickResult.reposted ∧
      (do_one_action env s0 now).1 ≠ TickResult.post_failed ∧
      (do_one_action env s0 now).2.daily.posts = (rolled s0 now).daily.posts ∧
      (do_one_action env s0 now).2.hourly.posts = (rolled s0 now).hourly.posts) ∧
    (∀ env s0 now n rest,
      can_engage (rolled s0 now) = true →
      env.shuffleMentions (fetch_unprocessed_mentions env.notifs
        (rolled s0 now).processed_notifications) = n :: rest →
      engage_for_notification env.likeRoll n ≠ none →
      (do_one_action env s0 now).1 = TickResult.engaged) := by
  refine ⟨?_, ?_, ?_⟩
  · intro h hlt
    unfold is_quiet_hours NO_POST_START_HOUR NO_POST_END_HOUR
    rw [if_neg (by omega)]
    simp only [decide_eq_true_eq]
    omega
  · intro env s0 now hq
    unfold do_one_action
    rcases engagementPhase_cases env (rolled s0 now) now with heq |
        ⟨_, n, rest, _, _, hr1, heq2⟩
    · rw [heq, postingPhase_quiet env (rolled s0 now) now hq]
      exact ⟨by simp, by simp, by simp, rfl, rfl⟩
    · rw [hr1, heq2]
      exact ⟨by simp, by simp, by simp,
        by rw [engRecord_daily_posts, procMark_daily],
        by rw [engRecord_hourly_posts, procMark_hourly]⟩
  · intro env s0 now n rest hce hl hek
    unfold do_one_action engagementPhase
    rw [if_pos hce, hl]
    dsimp only
    cases hekk : engage_for_notification env.likeRoll n with
    | none => exact absurd hekk hek
    | some k => rfl

/-- C5 witness: the boundary characterisation at hour 3. -/
theorem quiet_hours_sound_witness :
    is_quiet_hours 3 = true ↔ ((23 ≤ 3 ∧ 3 < 24) ∨ 3 < 7) :=
  quiet_hours_sound.1 3 (by decide)

/-- C8: publish-failure atomicity.  If the posting branch returns
`post_failed` the state it returns is exactly its input state; lifted to a
whole tick, a `post_failed` tick returns exactly the rolled-over state (the
posting branch mutates nothing); and whenever the posting guard holds, the
decision is a text/image post and the publish call raises or returns no
URI, the branch does return `post_failed`. -/
theorem post_failed_atomic :
    (∀ env s now, (postingPhase env s now).1 = TickResult.post_failed →
      (postingPhase env s now).2 = s) ∧
    (∀ env s0 now, (do_one_action env s0 now).1 = TickResult.post_failed →
      (do_one_action env s0 now).2 = rolled s0 now) ∧
    (∀ env s now a t i,
      (can_post s && ! is_quiet_hours now.hour) = true →
      postingDecision env s.pertype now.hour = PostPlan.planPost a t i →
      (env.postResult = PubResult.err ∨ env.postResult = PubResult.noUri) →
      (postingPhase env s now).1 = TickResult.post_failed) := by
  refine ⟨?_, ?_, ?_⟩
  · intro env s now hres
    rcases postingPhase_cases env s now with ⟨h1, h2⟩ | ⟨h1, h2⟩ |
        ⟨_, uri, h1, h2⟩ | ⟨_, a, t, i, _, h1, h2⟩
    · rw [h1] at hres; exact absurd hres (by simp)
    · exact h2
    · rw [h1] at hres; exact absurd hres (by simp)
    · rw [h1] at hres; exact absurd hres (by simp)
  · intro env s0 now hres
    unfold do_one_action at hres ⊢
    rcases engagementPhase_cases env (rolled s0 now) now with heq |
        ⟨_, n, rest, _, _, hr1, _⟩
    · rw [heq] at hres ⊢
      rcases postingPhase_cases env (rolled s0 now) now with ⟨h1, h2⟩ | ⟨h1, h2⟩ |
          ⟨_, uri, h1, h2⟩ | ⟨_, a, t, i, _, h1, h2⟩
      · rw [h1] at hres; exact absurd hres (by simp)
      · exact h2
      · rw [h1] at hres; exact absurd hres (by simp)
      · rw [h1] at hres; exact absurd hres (by simp)
    · rw [hr1] at hres; exact absurd hres (by simp)
  · intro env s now a t i hg hplan hpr
    unfold postingPhase
    rw [if_pos hg, hplan]
    rcases hpr with hpr | hpr <;> rw [hpr]

/-- C8 witness: a concrete tick whose publish call raises returns
`post_failed` with the rolled-over state unchanged. -/
theorem post_failed_atomic_witness :
    (do_one_action failEnv initialState t13).1 = TickResult.post_failed ∧
      (do_one_action failEnv initialState t13).2 = rolled initialState t13 :=
  ⟨by decide, post_failed_atomic.2.1 failEnv initialState t13 (by decide)⟩

theorem engRecord_processed (s : BotState) :
    (engRecord s).processed_notifications = s.processed_notifications := rfl

theorem procMark_processed_some (s : BotState) (nid : String) :
    (procMark s (some nid)).processed_notifications =
      lastN 500 (s.processed_notifications ++ [nid]) := by
  simp [procMark]

/-- The appended element survives the 500-entry ring trim. -/
theorem mem_lastN_append_self (l : List String) (a : String) :
    a ∈ lastN 500 (l ++ [a]) := by
  unfold lastN
  rw [List.drop_append_eq_append_drop]
  have hle : (l ++ [a]).length - 500 - l.length = 0 := by
    simp only [List.length_append, List.length_cons, List.length_nil]
    omega
  rw [hle]
  simp

/-- Membership in the unprocessed-mentions list decodes to the filter
condition. -/
theorem mem_fetch_unprocessed (notifs : List Notif) (processed : List String)
    (n : Notif) (h : n ∈ fetch_unprocessed_mentions notifs processed) :
    n ∈ notifs ∧ ∃ nid, notifId n = some nid ∧ nid ∉ processed := by
  obtain ⟨hmem, hpred⟩ := List.mem_filter.mp h
  refine ⟨hmem, ?_⟩
  rw [Bool.and_eq_true] at hpred
  obtain ⟨_, hpred⟩ := hpred
  cases hid : notifId n with
  | none => rw [hid] at hpred; exact absurd hpred (by simp)
  | some nid =>
    rw [hid] at hpred
    refine ⟨nid, rfl, ?_⟩
    simpa using hpred

/-- C9: at most one engagement is performed per tick (the engagement
counters grow by at most one); whenever a tick returns `engaged` (and the
shuffle is a permutation, as `random.shuffle` is), the engaged notification
came from the unprocessed list, its identifier was not yet processed, it is
appended to the processed list (ring-trimmed to 500) and both engagement
counters grow by exactly one; and a notification whose identifier is
already in the processed list is never part of the unprocessed list, so a
subsequent tick performs no further engagement on it. -/
theorem engagement_once_and_deduped :
    (∀ env s0 now,
      (do_one_action env s0 now).2.daily.engagements ≤
        (rolled s0 now).daily.engagements + 1 ∧
      (do_one_action env s0 now).2.hourly.engagements ≤
        (rolled s0 now).hourly.engagements + 1) ∧
    (∀ env s0 now, (∀ l, (env.shuffleMentions l).Perm l) →
      (do_one_action env s0 now).1 = TickResult.engaged →
      ∃ n nid,
        n ∈ fetch_unprocessed_mentions env.notifs
          (rolled s0 now).processed_notifications ∧
        notifId n = some nid ∧
        nid ∉ (rolled s0 now).processed_notifications ∧
        (do_one_action env s0 now).2.processed_notifications =
          lastN 500 ((rolled s0 now).processed_notifications ++ [nid]) ∧
        nid ∈ (do_one_action env s0 now).2.processed_notifications ∧
        (do_one_action env s0 now).2.daily.engagements =
          (rolled s0 now).daily.engagements + 1 ∧
        (do_one_action env s0 now).2.hourly.engagements =
          (rolled s0 now).hourly.engagements + 1) ∧
    (∀ notifs processed n nid, notifId n = some nid → nid ∈ processed →
      n ∉ fetch_unprocessed_mentions notifs processed) := by
  refine ⟨?_, ?_, ?_⟩
  · intro env s0 now
    unfold do_one_action
    rcases engagementPhase_cases env (rolled s0 now) now with heq |
        ⟨_, n, rest, _, _, _, heq2⟩
    · rw [heq]
      rcases postingPhase_cases env (rolled s0 now) now with ⟨_, h2⟩ | ⟨_, h2⟩ |
          ⟨_, uri, _, h2⟩ | ⟨_, a, t, i, _, _, h2⟩
      · rw [h2]; omega
      · rw [h2]; omega
      · rw [h2, recordRepost_daily_eng, recordRepost_hourly_eng]; omega
      · rw [h2, recordPostSuccess_daily_eng, recordPostSuccess_hourly_eng]; omega
    · rw [heq2, engRecord_daily_eng, engRecord_hourly_eng, procMark_daily, procMark_hourly]
      omega
  · intro env s0 now hperm hres
    unfold do_one_action at hres ⊢
    rcases engagementPhase_cases env (rolled s0 now) now with heq |
        ⟨hce, n, rest, hl, _, hr1, heq2⟩
    · exfalso
      rw [heq] at hres
      rcases postingPhase_cases env (rolled s0 now) now with ⟨h1, _⟩ | ⟨h1, _⟩ |
          ⟨_, uri, h1, _⟩ | ⟨_, a, t, i, _, h1, _⟩ <;>
        rw [h1] at hres <;> exact absurd hres (by simp)
    · have hmem : n ∈ fetch_unprocessed_mentions env.notifs
          (rolled s0 now).processed_notifications := by
        have hp := hperm (fetch_unprocessed_mentions env.notifs
          (rolled s0 now).processed_notifications)
        rw [hl] at hp
        exact hp.mem_iff.mp (List.mem_cons_self n rest)
      obtain ⟨_, nid, hid, hnotproc⟩ :=
        mem_fetch_unprocessed _ _ _ hmem
      refine ⟨n, nid, hmem, hid, hnotproc, ?_, ?_, ?_, ?_⟩
      · rw [heq2, engRecord_processed, hid, procMark_processed_some]
      · rw [heq2, engRecord_processed, hid, procMark_processed_some]
        exact mem_lastN_append_self _ _
      · rw [heq2, engRecord_daily_eng, procMark_daily]
      · rw [heq2, engRecord_hourly_eng, procMark_hourly]
  · intro notifs processed n nid hid hproc hmem
    obtain ⟨_, nid2, hid2, hnot⟩ := mem_fetch_unprocessed _ _ _ hmem
    rw [hid] at hid2
    cases hid2
    exact hnot hproc

/-- C9 witness: a notification whose identifier is already processed is
excluded from the unprocessed list. -/
theorem engagement_once_and_deduped_witness :
    notifId mentionNotif = some ("cid1") ∧ "cid1" ∈ ["cid1"] ∧
      mentionNotif ∉ fetch_unprocessed_mentions [mentionNotif] ["cid1"] :=
  ⟨by decide, by decide,
    engagement_once_and_deduped.2.2 [mentionNotif] ["cid1"] mentionNotif ("cid1")
      (by decide) (by decide)⟩

/-! ### Cap soundness of the prepared plan -/

/-- The link block only keeps (or produces) the link kind when the daily
link cap is open. -/
theorem linkBlock_link (env : TickEnv) (p : PerType) (st : Prep)
    (h : (linkBlock env p st).1 = .post_short_link) :
    p.post_short_link < MAX_SHORT_LINK_PER_DAY := by
  unfold linkBlock at h
  by_cases h1 : st.1 = .post_short_link
  · rw [if_pos h1] at h
    by_cases h2 : MAX_SHORT_LINK_PER_DAY ≤ p.post_short_link
    · rw [if_pos h2] at h
      exfalso
      unfold downgrade_from at h
      dsimp only at h
      split at h <;> simp_all
    · omega
  · rw [if_neg h1] at h
    exact absurd h h1

/-- The link block yields the long kind only if it received it or the long
cap is open (via the downgrade chain). -/
theorem linkBlock_long (env : TickEnv) (p : PerType) (st : Prep)
    (h : (linkBlock env p st).1 = .post_gmgn_long) :
    st.1 = .post_gmgn_long ∨ p.post_gmgn_long < MAX_GMGN_LONG_PER_DAY := by
  unfold linkBlock at h
  by_cases h1 : st.1 = .post_short_link
  · rw [if_pos h1] at h
    by_cases h2 : MAX_SHORT_LINK_PER_DAY ≤ p.post_short_link
    · rw [if_pos h2] at h
      right
      unfold downgrade_from at h
      dsimp only at h
      split at h <;> simp_all
    · rw [if_neg h2] at h
      exact absurd h (by simp)
  · rw [if_neg h1] at h
    exact Or.inl h

/-- The long block only keeps the long kind when the long cap is open. -/
theorem longBlock_long (env : TickEnv) (p : PerType) (st : Prep)
    (h : (longBlock env p st).1 = .post_gmgn_long) :
    p.post_gmgn_long < MAX_GMGN_LONG_PER_DAY := by
  unfold longBlock at h
  by_cases h1 : st.1 = .post_gmgn_long
  · rw [if_pos h1] at h
    by_cases h2 : MAX_GMGN_LONG_PER_DAY ≤ p.post_gmgn_long
    · rw [if_pos h2] at h
      exfalso
      unfold downgrade_from at h
      dsimp only at h
      split at h <;> simp_all
    · omega
  · rw [if_neg h1] at h
    exact absurd h h1

/-- The finish step posts exactly the prepared kind. -/
theorem finishPlan_planPost (env : TickEnv) (st : Prep) (a : ActionKind)
    (t : String) (i : Option String) (h : finishPlan env st = .planPost a t i) :
    st.1 = a := by
  unfold finishPlan at h
  by_cases h1 : st.1 = .repost
  · rw [if_pos h1] at h
    exfalso
    cases hp : env.repostPick2 with
    | some pr =>
      rw [hp] at h
      dsimp only at h
      by_cases ho : env.repostOk2 = true
      · rw [if_pos ho] at h; exact absurd h (by simp)
      · rw [if_neg ho] at h; exact absurd h (by simp)
    | none => rw [hp] at h; exact absurd h (by simp)
  · rw [if_neg h1] at h
    cases ht : st.2.1 with
    | none => rw [ht] at h; exact absurd h (by simp)
    | some t0 =>
      rw [ht] at h
      dsimp only at h
      by_cases h2 : t0 = ""
      · rw [if_pos h2] at h; exact absurd h (by simp)
      · rw [if_neg h2] at h
        simp only [PostPlan.planPost.injEq] at h
        exact h.1

/-- Any post planned by the preparation blocks respects the link and long
daily caps. -/
theorem prepBlocks_planPost_caps (env : TickEnv) (p : PerType) (a0 a : ActionKind)
    (t : String) (i : Option String) (h : prepBlocks env p a0 = .planPost a t i) :
    (a = .post_short_link → p.post_short_link < MAX_SHORT_LINK_PER_DAY) ∧
    (a = .post_gmgn_long → p.post_gmgn_long < MAX_GMGN_LONG_PER_DAY) := by
  unfold prepBlocks at h
  have hst := finishPlan_planPost _ _ _ _ _ h
  constructor
  · intro ha
    exact linkBlock_link _ _ _ (by rw [hst, ha])
  · intro ha
    rcases linkBlock_long _ _ _ (by rw [hst, ha]) with h2 | h2
    · exact longBlock_long _ _ _ h2
    · exact h2

/-- The repost fallback also respects the caps. -/
theorem repostFallbackPlan_caps (env : TickEnv) (p : PerType) (a : ActionKind)
    (t : String) (i : Option String) (h : repostFallbackPlan env p = .planPost a t i) :
    (a = .post_short_link → p.post_short_link < MAX_SHORT_LINK_PER_DAY) ∧
    (a = .post_gmgn_long → p.post_gmgn_long < MAX_GMGN_LONG_PER_DAY) := by
  unfold repostFallbackPlan at h
  by_cases h1 : p.post_short_link < MAX_SHORT_LINK_PER_DAY
  · rw [if_pos h1] at h
    exact prepBlocks_planPost_caps _ _ _ _ _ _ h
  · rw [if_neg h1] at h
    by_cases h2 : p.post_gmgn_long < MAX_GMGN_LONG_PER_DAY
    · rw [if_pos h2] at h
      exact prepBlocks_planPost_caps _ _ _ _ _ _ h
    · rw [if_neg h2] at h
      exact absurd h (by simp)

/-- Any post planned by the posting branch respects the link and long daily
caps. -/
theorem postingDecision_planPost_caps (env : TickEnv) (p : PerType) (hN : Nat)
    (a : ActionKind) (t : String) (i : Option String)
    (h : postingDecision env p hN = .planPost a t i) :
    (a = .post_short_link → p.post_short_link < MAX_SHORT_LINK_PER_DAY) ∧
    (a = .post_gmgn_long → p.post_gmgn_long < MAX_GMGN_LONG_PER_DAY) := by
  unfold postingDecision at h
  by_cases hc : choose_action_with_caps hN p = .repost
  · rw [if_pos hc] at h
    cases hp : env.repostPick1 with
    | some pr =>
      rw [hp] at h
      dsimp only at h
      by_cases ho : env.repostOk1 = true
      · rw [if_pos ho] at h; exact absurd h (by simp)
      · rw [if_neg ho] at h; exact repostFallbackPlan_caps _ _ _ _ _ h
    | none => rw [hp] at h; exact repostFallbackPlan_caps _ _ _ _ _ h
  · rw [if_neg hc] at h
    exact prepBlocks_planPost_caps _ _ _ _ _ _ h

/-- One tick keeps the daily link counter within its cap. -/
theorem tick_link_le (env : TickEnv) (s : BotState) (now : LocalTime)
    (h : s.pertype.post_short_link ≤ MAX_SHORT_LINK_PER_DAY) :
    (do_one_action env s now).2.pertype.post_short_link ≤ MAX_SHORT_LINK_PER_DAY := by
  have hr := (rolled_le s now).2.2.2.2
  unfold do_one_action
  rcases engagementPhase_cases env (rolled s now) now with heq |
      ⟨_, n, rest, _, _, _, heq2⟩
  · rw [heq]
    rcases postingPhase_cases env (rolled s now) now with ⟨_, h2⟩ | ⟨_, h2⟩ |
        ⟨_, uri, _, h2⟩ | ⟨_, a, t, i, hplan, _, h2⟩
    · rw [h2]; omega
    · rw [h2]; omega
    · rw [h2, recordRepost_pertype, bumpPertype_link, if_neg (by simp)]
      omega
    · rw [h2, recordPostSuccess_pertype, bumpPertype_link]
      by_cases ha : a = .post_short_link
      · rw [if_pos ha]
        have hlt := (postingDecision_planPost_caps env (rolled s now).pertype
          now.hour a t i hplan).1 ha
        omega
      · rw [if_neg ha]; omega
  · rw [heq2, engRecord_pertype, procMark_pertype]
    omega

/-- C3 counterexample: starting from the default state, a tick at hour 13 of
local date 0 posts a short link; the very next tick, at hour 14 of the same
local date — strictly inside `[D, D+7)` for `D` the date of the most recent
link post — again selects and posts a short link.  The code keeps no date
of the last link post at all; `MAX_SHORT_LINK_PER_DAY = 2` permits two link
posts on one local date. -/
theorem weekly_link_throttle_counterexample :
    (do_one_action linkEnv initialState t13).1 = TickResult.posted ∧
    (do_one_action linkEnv initialState t13).2.pertype.post_short_link = 1 ∧
    (do_one_action linkEnv initialState t13).2.daily.date = some 0 ∧
    (do_one_action linkEnv (do_one_action linkEnv initialState t13).2 t14).1 =
      TickResult.posted ∧
    (do_one_action linkEnv (do_one_action linkEnv initialState t13).2
        t14).2.pertype.post_short_link = 2 ∧
    (do_one_action linkEnv (do_one_action linkEnv initialState t13).2
        t14).2.daily.date = some 0 := by
  decide

/-- C3 (amended): the link throttle is daily, not weekly: the selection
function offers the link kind only while the daily link counter is below
`MAX_SHORT_LINK_PER_DAY = 2`, and over every sequence of ticks the daily
link counter (reset on local date change) never exceeds that cap — so at
most two link posts occur per local date, with no constraint across
dates. -/
theorem link_throttle_daily :
    (∀ h p, choose_action_with_caps h p = ActionKind.post_short_link →
      p.post_short_link < MAX_SHORT_LINK_PER_DAY) ∧
    (∀ ticks s0, s0.pertype.post_short_link ≤ MAX_SHORT_LINK_PER_DAY →
      (runTicks ticks s0).pertype.post_short_link ≤ MAX_SHORT_LINK_PER_DAY) := by
  constructor
  · intro h p hc
    unfold choose_action_with_caps at hc
    split_ifs at hc <;> simp_all
  · intro ticks
    induction ticks with
    | nil => intro s0 h; exact h
    | cons t ts ih =>
      intro s0 h
      exact ih _ (tick_link_le t.1 s0 t.2 h)

/-- C3 (amended) witness: instantiation of both conjuncts at concrete
inputs. -/
theorem link_throttle_daily_witness :
    choose_action_with_caps 13 pertypeZero = ActionKind.post_short_link ∧
      pertypeZero.post_short_link < MAX_SHORT_LINK_PER_DAY ∧
      (runTicks [(linkEnv, t13)] initialState).pertype.post_short_link ≤
        MAX_SHORT_LINK_PER_DAY :=
  ⟨by decide, link_throttle_daily.1 13 pertypeZero (by decide),
    link_throttle_daily.2 [(linkEnv, t13)] initialState (by decide)⟩

/-- C4 counterexample: starting from the default state, a tick at hour 15
executes a short-link post; on the next tick (hour 16, same window) the
tentatively selected kind again equals the previously executed kind
(short-link) while a different eligible kind exists (the long greeting,
count 0 with cap 1, and repost), yet the tick again executes a short-link
post: no consecutive-action avoidance is applied. -/
theorem consecutive_avoidance_counterexample :
    (do_one_action linkEnv initialState t15).1 = TickResult.posted ∧
    (do_one_action linkEnv initialState t15).2.pertype.post_short_link = 1 ∧
    choose_action_with_caps 16
      (do_one_action linkEnv initialState t15).2.pertype = ActionKind.post_short_link ∧
    (do_one_action linkEnv initialState t15).2.pertype.post_gmgn_long = 0 ∧
    (do_one_action linkEnv (do_one_action linkEnv initialState t15).2 t16).1 =
      TickResult.posted ∧
    (do_one_action linkEnv (do_one_action linkEnv initialState t15).2
        t16).2.pertype.post_short_link = 2 := by
  decide

/-- C4 (amended): no consecutive-action avoidance exists.  The selected
kind is a function of the local hour and the per-kind counters alone; in
particular, after a short-link post in the midday window whose counter
stays below the cap, the very next selection returns short-link again even
though a different eligible kind (the long greeting) exists. -/
theorem no_consecutive_avoidance (h : Nat) (p : PerType) (h1 : 11 ≤ h)
    (h2 : h < 19) (hlink : p.post_short_link + 1 < MAX_SHORT_LINK_PER_DAY)
    (hlong : p.post_gmgn_long < MAX_GMGN_LONG_PER_DAY) :
    choose_action_with_caps h p = ActionKind.post_short_link ∧
    choose_action_with_caps h (bumpPertype p ActionKind.post_short_link) =
      ActionKind.post_short_link := by
  constructor
  · unfold choose_action_with_caps
    split_ifs <;> first | rfl | omega
  · unfold choose_action_with_caps
    dsimp only [bumpPertype]
    split_ifs <;> first | rfl | omega

/-- C4 (amended) witness: instantiation at hour 13 with all counts zero. -/
theorem no_consecutive_avoidance_witness :
    choose_action_with_caps 13 pertypeZero = ActionKind.post_short_link ∧
      choose_action_with_caps 13 (bumpPertype pertypeZero ActionKind.post_short_link) =
        ActionKind.post_short_link :=
  no_consecutive_avoidance 13 pertypeZero (by decide) (by decide) (by decide) (by decide)

/-! ### Retry wrapper lemmas -/

/-- If no non-rate-limited failure occurs, the wrapper never re-raises. -/
theorem with_backoff_go_no_raise (l : List (Option Bool)) :
    ∀ t acc, some false ∉ l → ∀ s, with_backoff_go l t acc ≠ .raised s := by
  induction l with
  | nil => intro t acc _ s; simp [with_backoff_go]
  | cons o rest ih =>
    intro t acc hmem s
    match o with
    | none => simp [with_backoff_go]
    | some true =>
      exact ih (t + 1) (min (5 * 2 ^ (t + 1 - 1)) 60 :: acc)
        (fun hc => hmem (List.mem_cons_of_mem _ hc)) s
    | some false =>
      exact absurd (List.mem_cons_self _ _) hmem

/-- A pure rate-limit run sleeps `min (5 * 2 ^ k) 60` before the
`(k+1)`-st attempt. -/
theorem with_backoff_go_rl (k : Nat) :
    ∀ t acc, with_backoff_go (List.replicate k (some true) ++ [none]) t acc =
      .succeeded (acc.reverse ++ (List.range k).map fun i => min (5 * 2 ^ (t + i)) 60) := by
  induction k with
  | zero =>
    intro t acc
    simp [with_backoff_go]
  | succ k ih =>
    intro t acc
    have h1 : List.replicate (k + 1) (some true) ++ [none] =
        some true :: (List.replicate k (some true) ++ [none]) := by
      simp [List.replicate_succ]
    have h2 : with_backoff_go (some true :: (List.replicate k (some true) ++ [none])) t acc =
        with_backoff_go (List.replicate k (some true) ++ [none]) (t + 1)
          (min (5 * 2 ^ (t + 1 - 1)) 60 :: acc) := rfl
    rw [h1, h2, ih (t + 1)]
    have h3 : (fun i => min (5 * 2 ^ (t + 1 + i)) 60) =
        fun i => min (5 * 2 ^ (t + (i + 1))) 60 := by
      funext i
      have : t + 1 + i = t + (i + 1) := by omega
      rw [this]
    have h4 : ((fun i => min (5 * 2 ^ (t + i)) 60) ∘ Nat.succ) =
        fun i => min (5 * 2 ^ (t + (i + 1))) 60 := by
      funext i
      simp [Function.comp, Nat.succ_eq_add_one]
    simp only [List.reverse_cons, List.range_succ_eq_map, List.map_cons, List.map_map,
      List.append_assoc, List.singleton_append, Nat.add_zero]
    rw [Nat.add_sub_cancel, h3, h4]

/-- A re-raise happens only on the third or later failed call. -/
theorem with_backoff_go_raised_failures (l : List (Option Bool)) :
    ∀ t acc s, with_backoff_go l t acc = .raised s →
      3 ≤ t + l.countP (fun o => o.isSome) := by
  induction l with
  | nil => intro t acc s h; simp [with_backoff_go] at h
  | cons o rest ih =>
    intro t acc s h
    match o with
    | none => simp [with_backoff_go] at h
    | some true =>
      have e : with_backoff_go (some true :: rest) t acc =
          with_backoff_go rest (t + 1) (min (5 * 2 ^ (t + 1 - 1)) 60 :: acc) := rfl
      rw [e] at h
      have h3 := ih (t + 1) _ s h
      simp only [List.countP_cons, Option.isSome_some, if_true]
      omega
    | some false =>
      have e : with_backoff_go (some false :: rest) t acc =
          if t + 1 ≤ 2 then with_backoff_go rest (t + 1) (2 * (t + 1) :: acc)
          else .raised acc.reverse := rfl
      rw [e] at h
      by_cases h2 : t + 1 ≤ 2
      · rw [if_pos h2] at h
        have h3 := ih (t + 1) _ s h
        simp only [List.countP_cons, Option.isSome_some, if_true]
        omega
      · simp only [List.countP_cons, Option.isSome_some, if_true]
        omega

/-- C7 counterexample: a failure for which `_needs_backoff` is false — e.g.
the `RuntimeError` raised for missing/bad credentials, whose text contains
no rate-limit marker — is NOT surfaced immediately: the wrapper sleeps 2
seconds and retries, and here the retry succeeds, so the fatal failure is
never surfaced at all, contradicting the claimed immediate surfacing of
fatal failures. -/
theorem fatal_retried_counterexample :
    with_backoff [some false, none] = BackoffResult.succeeded [2] := by decide

/-- C7 (amended): the wrapper distinguishes only two failure classes, not
three.  (1) Runs containing no non-rate-limited failure are never
re-raised (rate limiting is absorbed, with unbounded retries); (2) a run of
`k` rate-limited failures sleeps exactly `min (5 * 2^i) 60` seconds before
retry `i+1` — exponential from base 5, doubling, capped at 60; (3) every
other failure — transient or fatal alike — is retried while the total
failure count is at most 2 (with linear `2 * tries` sleeps) and surfaced on
the third failed call; (4) concretely, two non-rate-limited failures are
retried after 2 s and 4 s. -/
theorem with_backoff_two_way_classification :
    (∀ attempts, some false ∉ attempts → ∀ s,
      with_backoff attempts ≠ BackoffResult.raised s) ∧
    (∀ k, with_backoff (List.replicate k (some true) ++ [none]) =
      BackoffResult.succeeded ((List.range k).map fun i => min (5 * 2 ^ i) 60)) ∧
    (∀ attempts s, with_backoff attempts = BackoffResult.raised s →
      3 ≤ attempts.countP fun o => o.isSome) ∧
    with_backoff [some false, some false, none] = BackoffResult.succeeded [2, 4] := by
  refine ⟨?_, ?_, ?_, by decide⟩
  · intro attempts h s
    exact with_backoff_go_no_raise attempts 0 [] h s
  · intro k
    have h := with_backoff_go_rl k 0 []
    simpa using h
  · intro attempts s h
    have h2 := with_backoff_go_raised_failures attempts 0 [] s h
    simpa using h2

/-- C7 (amended) witness: a run with a single rate-limited failure is not
re-raised. -/
theorem with_backoff_two_way_classification_witness :
    (some false ∉ ([some true, none] : List (Option Bool))) ∧
      with_backoff [some true, none] ≠ BackoffResult.raised [] :=
  ⟨by decide, with_backoff_two_way_classification.1 [some true, none] (by decide) []⟩

end BlueskyBot
